import Mathlib

/-!
Shallow embedding of the fund-holdings provider orchestration core of the
ii-portfolio-dashboard repository, together with proofs settling the frozen
claims about it.

Embedded source files:
* src/types (common.ts, funds.ts, providers.ts) — the data model;
* src/lib/providers/base-fetcher.ts — shared helpers of every provider
  fetcher (quality classification, retry-with-backoff, empty result);
* src/lib/providers/detector.ts — the pure provider-detection heuristic;
* src/lib/providers/registry.ts — the static provider registry;
* src/lib/providers/orchestrator.ts — single-fund waterfall and batch mode.

Effects are made explicit: network fetches are an oracle parameter
(`FetchBehavior`), the current date is a `today : String` parameter, progress
callbacks become an event list in the returned trace, and JavaScript string
primitives are re-implemented over `List Char` so everything evaluates in the
kernel.
-/

/-! ## String helpers (kernel-computable stand-ins for JS string methods) -/

/-- Lower-case a single ASCII character (JS `toLowerCase` on the fund-name
alphabet used by the detector). -/
def lowerChar (c : Char) : Char :=
  if 'A' ≤ c && c ≤ 'Z' then Char.ofNat (c.toNat + 32) else c

/-- JS `String.prototype.toLowerCase`. -/
def strToLower (s : String) : String := ⟨s.data.map lowerChar⟩

/-- Char-list version of startsWith: the first list heads the second. -/
def isPrefList : List Char → List Char → Bool
  | [], _ => true
  | _ :: _, [] => false
  | a :: as, b :: bs => a == b && isPrefList as bs

/-- Char-list substring occurrence. -/
def hasSub (hay needle : List Char) : Bool :=
  match hay with
  | [] => needle.isEmpty
  | _ :: t => isPrefList needle hay || hasSub t needle

/-- JS `String.prototype.includes`. -/
def strIncludes (s sub : String) : Bool := hasSub s.data sub.data

/-- JS `String.prototype.endsWith`. -/
def strEndsWith (s tail : String) : Bool :=
  isPrefList tail.data.reverse s.data.reverse

/-- Character class `[A-Z]`. -/
def upperAZ (c : Char) : Bool := 'A' ≤ c && c ≤ 'Z'

/-! ## Data model (src/types) -/

/-- `DataQuality` from src/types/common.ts; the source's middle variant is a
reserved word here, so it is spelled `partialQuality`. -/
inductive DataQuality where
  | complete
  | partialQuality
  | unavailable
  deriving DecidableEq, Repr

/-- `FetchStatus` from src/types/common.ts. -/
inductive FetchStatus where
  | pending
  | trying
  | success
  | failed
  deriving DecidableEq, Repr

/-- `FundMetadata` from src/types/funds.ts (value/quantity omitted: never
read by the core). -/
structure FundMetadata where
  symbol : String
  name : String
  isin : Option String := none
  sedol : Option String := none
  deriving DecidableEq, Repr

/-- `FundHolding` from src/types/funds.ts, restricted to the fields the
embedded core reads (the orchestration layer only ever counts holdings).
`weightPercent` is kept as an integer number of basis points. -/
structure FundHolding where
  name : String
  symbol : Option String := none
  weightPercent : Int := 0
  deriving DecidableEq, Repr

/-- `HoldingsResult` from src/types/providers.ts. -/
structure HoldingsResult where
  holdings : List FundHolding
  asOfDate : String
  dataQuality : DataQuality
  provider : String
  totalHoldings : Option Nat := none
  deriving DecidableEq, Repr

/-- `ProviderInfo` from src/types/providers.ts. -/
structure ProviderInfo where
  provider : String
  region : String
  fundType : String
  confidence : Nat
  deriving DecidableEq, Repr

/-- `ProgressUpdate` from src/types/providers.ts. -/
structure ProgressUpdate where
  status : FetchStatus
  provider : String
  fundSymbol : String
  holdingsCount : Option Nat := none
  dataQuality : Option DataQuality := none
  error : Option String := none
  deriving DecidableEq, Repr

/-- The `'success' | 'failed'` union used by `FundFetchResult.status`. -/
inductive BatchStatus where
  | success
  | failed
  deriving DecidableEq, Repr

/-- `FundFetchResult` from src/types/providers.ts. -/
structure FundFetchResult where
  symbol : String
  name : String
  status : BatchStatus
  provider : String
  holdingsCount : Nat
  dataQuality : DataQuality
  attemptedProviders : List String
  error : Option String := none
  deriving DecidableEq, Repr

/-- The `signals` record of `DetectionResult` (diagnostic only). -/
structure DetectionSignals where
  namePattern : Option String := none
  isinPref : Option String := none
  symbolPattern : Option String := none
  fundType : Option String := none
  deriving DecidableEq, Repr

/-- `DetectionResult` from src/types/providers.ts. -/
structure DetectionResult where
  providers : List ProviderInfo
  signals : DetectionSignals
  deriving DecidableEq, Repr

/-! ## BaseFetcher shared helpers (src/lib/providers/base-fetcher.ts) -/

/-- `BaseFetcher.determineDataQuality`.  Mirrors the source including the JS
truthiness test `if (totalKnown && holdingsCount >= totalKnown * 0.9)`:
`totalKnown = 0` is falsy and behaves like an absent total.  The float
comparison `holdingsCount >= totalKnown * 0.9` is embedded exactly as
`10 * holdingsCount ≥ 9 * totalKnown` (both sides integral counts). -/
def determineDataQuality (holdingsCount : Nat) (totalKnown : Option Nat) : DataQuality :=
  if holdingsCount = 0 then .unavailable
  else if holdingsCount ≥ 100 then .complete
  else if (match totalKnown with
           | some t => decide (t ≠ 0) && decide (10 * holdingsCount ≥ 9 * t)
           | none => false) then .complete
  else .partialQuality

/-- `BaseFetcher.createEmptyResult`; `new Date().toISOString().split('T')[0]`
is the explicit `today` parameter. -/
def createEmptyResult (today provider : String) : HoldingsResult :=
  { holdings := [], asOfDate := today, dataQuality := .unavailable, provider := provider }

/-! ### Retry-with-backoff (`BaseFetcher.fetchWithRetry`)

One iteration of the retry loop observes either an HTTP response (status code
plus status text) or a thrown network error; the sequence of observations is
an oracle indexed by the attempt counter. -/

/-- What one `fetch(url, ...)` call inside the retry loop produces. -/
inductive FetchAttempt where
  | resp (status : Nat) (statusText : String)
  | netError (msg : String)
  deriving DecidableEq, Repr

/-- Result of the whole retry helper: the status code of a returned `ok`
response, or the message of the error finally thrown. -/
inductive RetryOutcome where
  | ok (status : Nat)
  | raise (msg : String)
  deriving DecidableEq, Repr

/-- Observable behaviour of one `fetchWithRetry` call: its outcome, how many
`fetch` attempts it made, and the backoff waits (ms) between them. -/
structure RetryTrace where
  outcome : RetryOutcome
  attempts : Nat
  waits : List Nat
  deriving DecidableEq, Repr

/-- The error message built for a non-ok response: the string
"HTTP <status>: <statusText>" of the source. -/
def httpErrMsg (status : Nat) (statusText : String) : String :=
  "HTTP " ++ toString status ++ ": " ++ statusText

/-- One loop iteration's recorded error message.  In the source the 4xx-non-429
branch throws this very message, but the `throw` sits inside the `try`, so the
function's own `catch` captures it and the loop continues: every non-ok
response and every network error alike just set `lastError`. -/
def attemptErrMsg : FetchAttempt → String
  | .resp s st => httpErrMsg s st
  | .netError m => m

/-- The retry loop of `BaseFetcher.fetchWithRetry`, fuelled by the number of
iterations left (`maxRetries + 1` at entry).  `attempt` is the loop counter of
the source; backoff waits of `2^attempt * 500` ms are recorded between
consecutive attempts. -/
def retryGo (script : Nat → FetchAttempt) (maxRetries : Nat) :
    Nat → Nat → String → RetryTrace
  | _, 0, lastError => { outcome := .raise lastError, attempts := 0, waits := [] }
  | attempt, fuel + 1, _ =>
    match script attempt with
    | .resp s st =>
      if 200 ≤ s ∧ s < 300 then
        { outcome := .ok s, attempts := 1, waits := [] }
      else
        if attempt < maxRetries then
          let t := retryGo script maxRetries (attempt + 1) fuel (httpErrMsg s st)
          { outcome := t.outcome, attempts := t.attempts + 1,
            waits := 2 ^ attempt * 500 :: t.waits }
        else
          { outcome := .raise (httpErrMsg s st), attempts := 1, waits := [] }
    | .netError m =>
      if attempt < maxRetries then
        let t := retryGo script maxRetries (attempt + 1) fuel m
        { outcome := t.outcome, attempts := t.attempts + 1,
          waits := 2 ^ attempt * 500 :: t.waits }
      else
        { outcome := .raise m, attempts := 1, waits := [] }

/-- `BaseFetcher.fetchWithRetry` (default `maxRetries = 2` is passed
explicitly by callers of the embedding). -/
def fetchWithRetry (script : Nat → FetchAttempt) (maxRetries : Nat) : RetryTrace :=
  retryGo script maxRetries 0 (maxRetries + 1) "Failed to fetch after retries"

/-! ## Detector (src/lib/providers/detector.ts) -/

/-- `detectRegionFromName`. -/
def detectRegionFromName (name : String) : String :=
  let nameLower := strToLower name
  if strIncludes nameLower "msci world" || strIncludes nameLower "global" then "global"
  else if strIncludes nameLower "uk" || strIncludes nameLower "britain" then "uk"
  else if strIncludes nameLower "europe" then "eu"
  else if strIncludes nameLower "asia" || strIncludes nameLower "japan" ||
          strIncludes nameLower "pacific" then "asia"
  else if strIncludes nameLower "us" || strIncludes nameLower "america" then "us"
  else if strIncludes nameLower "emerging" then "em"
  else "unknown"

/-- `detectFromName`: fixed issuer-keyword table over the lower-cased name. -/
def detectFromName (name : String) : List ProviderInfo :=
  let nameLower := strToLower name
  (if strIncludes nameLower "ishares" then
    [{ provider := "ishares", region := detectRegionFromName name,
       fundType := "etf", confidence := 95 }] else []) ++
  (if strIncludes nameLower "vanguard" then
    [{ provider := "vanguard", region := detectRegionFromName name,
       fundType := if strIncludes nameLower "etf" then "etf" else "mutual",
       confidence := 95 }] else []) ++
  (if strIncludes nameLower "spdr" then
    [{ provider := "state-street", region := detectRegionFromName name,
       fundType := "etf", confidence := 95 }] else []) ++
  (if strIncludes nameLower "invesco" then
    [{ provider := "invesco", region := detectRegionFromName name,
       fundType := "etf", confidence := 90 }] else []) ++
  (if strIncludes nameLower "fidelity" then
    [{ provider := "fidelity", region := detectRegionFromName name,
       fundType := "mutual", confidence := 90 }] else []) ++
  (if strIncludes nameLower "blackrock" && !strIncludes nameLower "ishares" then
    [{ provider := "ft-scraper", region := "uk", fundType := "oeic",
       confidence := 85 }] else []) ++
  (if strIncludes nameLower "trust" && !strIncludes nameLower "unit trust" then
    [{ provider := "ft-scraper", region := "uk", fundType := "trust",
       confidence := 80 }] else [])

/-- `detectFromISIN`: the switch on the two-character country code. -/
def detectFromISIN (isin : String) : List ProviderInfo :=
  let code : List Char := isin.data.take 2
  if code = ['G', 'B'] then
    [{ provider := "ft-scraper", region := "uk", fundType := "oeic", confidence := 70 }]
  else if code = ['I', 'E'] then
    [{ provider := "ishares", region := "ie", fundType := "etf", confidence := 75 },
     { provider := "vanguard", region := "ie", fundType := "etf", confidence := 70 }]
  else if code = ['U', 'S'] then
    [{ provider := "ishares", region := "us", fundType := "etf", confidence := 70 },
     { provider := "vanguard", region := "us", fundType := "etf", confidence := 70 }]
  else if code = ['L', 'U'] then
    [{ provider := "ishares", region := "lu", fundType := "etf", confidence := 70 }]
  else []

/-- `detectFromSymbol`: regex shape classification of the ticker. -/
def detectFromSymbol (symbol : String) : List ProviderInfo :=
  let cs := symbol.data
  (if 2 ≤ cs.length && cs.length ≤ 4 && cs.all upperAZ then
    [{ provider := "ft-scraper", region := "uk", fundType := "trust", confidence := 65 }]
   else []) ++
  (if strEndsWith symbol ".L" then
    [{ provider := "yahoo", region := "uk", fundType := "any", confidence := 70 }]
   else []) ++
  (if 4 ≤ cs.length && cs.all upperAZ then
    [{ provider := "yahoo", region := "us", fundType := "etf", confidence := 75 }]
   else [])

/-- `detectFundType` (diagnostic-only fund-type inference). -/
def detectFundType (metadata : FundMetadata) : String :=
  let nameLower := strToLower metadata.name
  if strIncludes nameLower "etf" then "etf"
  else if strIncludes nameLower "trust" && !strIncludes nameLower "unit trust" then "trust"
  else if (metadata.isin.map (fun i => isPrefList ['G', 'B'] i.data)).getD false
          && metadata.sedol.isSome then "oeic"
  else "unknown"

/-- Replacement step of the dedup `Map`: the stored entry for `p`'s name is
overwritten by `p` only when `p`'s confidence is strictly greater. -/
def replEntry (p q : ProviderInfo) : ProviderInfo :=
  if q.provider == p.provider && p.confidence > q.confidence then p else q

/-- One `map.set` step of `deduplicateProviders`: a JS `Map` keeps the key at
its first-insertion position, and the source only replaces the stored entry
when the new confidence is strictly greater. -/
def insertDedup (acc : List ProviderInfo) (p : ProviderInfo) : List ProviderInfo :=
  if acc.any (fun q => q.provider == p.provider) then acc.map (replEntry p)
  else acc ++ [p]

/-- `deduplicateProviders`: collapse by provider name, keeping the maximum
confidence, preserving first-occurrence order. -/
def deduplicateProviders (providers : List ProviderInfo) : List ProviderInfo :=
  providers.foldl insertDedup []

/-- Stable descending insertion: the inserted element goes before the first
strictly-smaller-or-equal... precisely, before the first entry whose
confidence it reaches, matching the stable JS sort with comparator
(a, b) => b.confidence - a.confidence for an element originally to the left. -/
def insertDesc (p : ProviderInfo) : List ProviderInfo → List ProviderInfo
  | [] => [p]
  | q :: qs => if q.confidence ≤ p.confidence then p :: q :: qs else q :: insertDesc p qs

/-- The stable sort `providers.sort((a, b) => b.confidence - a.confidence)`. -/
def sortDesc : List ProviderInfo → List ProviderInfo
  | [] => []
  | p :: ps => insertDesc p (sortDesc ps)

/-- The universal fallback entries appended unconditionally. -/
def fallbackProviders : List ProviderInfo :=
  [{ provider := "yahoo", region := "global", fundType := "any", confidence := 60 },
   { provider := "morningstar", region := "global", fundType := "any", confidence := 40 }]

/-- All contributed candidate entries, in push order, before deduplication:
name signal, ISIN signal (when an ISIN is present), symbol signal, fallbacks. -/
def rawProviders (metadata : FundMetadata) : List ProviderInfo :=
  detectFromName metadata.name ++
  (match metadata.isin with
   | some isin => detectFromISIN isin
   | none => []) ++
  detectFromSymbol metadata.symbol ++
  fallbackProviders

/-- `detectProviders`: contributions of the four signals, deduplicated then
sorted by descending confidence; the `signals` record is diagnostic only. -/
def detectProviders (metadata : FundMetadata) : DetectionResult :=
  let nameProviders := detectFromName metadata.name
  let isinProviders := match metadata.isin with
    | some isin => detectFromISIN isin
    | none => []
  let symbolProviders := detectFromSymbol metadata.symbol
  { providers := sortDesc (deduplicateProviders (rawProviders metadata)),
    signals :=
      { namePattern := match nameProviders with
          | [] => none
          | p :: _ => some p.provider,
        isinPref := match metadata.isin with
          | some isin => if isinProviders.isEmpty then none else some ⟨isin.data.take 2⟩
          | none => none,
        symbolPattern := if symbolProviders.isEmpty then none else some "detected",
        fundType := some (detectFundType metadata) } }

/-! ## Registry (src/lib/providers/registry.ts) -/

/-- The names registered by `registerProviders()` at startup, in registration
order: one per concrete fetcher class.  Note there is no "fidelity" fetcher. -/
def registeredNames : List String :=
  ["ishares", "vanguard", "invesco", "state-street", "ft-scraper", "yahoo", "morningstar"]

/-- Whether `getProviderFetcher(name)` resolves (the registry is read-only
after initialization). -/
def isRegistered (name : String) : Bool := registeredNames.contains name

/-! ## Orchestrator (src/lib/providers/orchestrator.ts)

A provider attempt (`fetcher.fetchHoldings(fund)` raced against the 10 s
timeout) either settles with a `HoldingsResult` or rejects with an error
message (a fetch error or the timeout).  Which of these happens for a given
provider name and fund is an oracle parameter of the embedding. -/

/-- How one provider attempt settles. -/
inductive FetchOutcome where
  | ok (r : HoldingsResult)
  | err (msg : String)
  deriving DecidableEq, Repr

/-- The network oracle: what `fetchHoldings` (raced with the timeout) does for
each provider name and fund. -/
def FetchBehavior : Type := String → FundMetadata → FetchOutcome

/-- An attempt that raised, or that returned zero holdings (the waterfall's
soft failure). -/
def errOrEmpty : FetchOutcome → Bool
  | .ok r => r.holdings.isEmpty
  | .err _ => true

/-- An attempt that settled with at least one holding. -/
def nonemptyOk : FetchOutcome → Bool
  | .ok r => !r.holdings.isEmpty
  | .err _ => false

/-- Everything observable about one run of the single-fund waterfall:
the resolved `HoldingsResult`, the emitted progress events in order, the
`attemptedProviders` array the source pushes to just before each `trying`
event, and the provider names whose `fetchHoldings` was actually invoked. -/
structure WaterfallTrace where
  result : HoldingsResult
  events : List ProgressUpdate
  attempted : List String
  invoked : List String
  deriving DecidableEq, Repr

/-- The `trying` progress event of the source. -/
def tryingUpdate (name fundSymbol : String) : ProgressUpdate :=
  { status := .trying, provider := name, fundSymbol := fundSymbol }

/-- The `success` progress event of the source. -/
def successUpdate (name fundSymbol : String) (r : HoldingsResult) : ProgressUpdate :=
  { status := .success, provider := name, fundSymbol := fundSymbol,
    holdingsCount := some r.holdings.length, dataQuality := some r.dataQuality }

/-- The `failed` progress event of the source. -/
def failedUpdate (name fundSymbol msg : String) : ProgressUpdate :=
  { status := .failed, provider := name, fundSymbol := fundSymbol, error := some msg }

/-- The canonical unavailable sentinel returned when every candidate is
exhausted: empty holdings, today's date, quality unavailable, provider
"none". -/
def unavailableSentinel (today : String) : HoldingsResult :=
  { holdings := [], asOfDate := today, dataQuality := .unavailable, provider := "none" }

/-- The candidate loop of `fetchHoldingsWithProviders`: resolve each candidate
in the Registry (skip silently if absent), push to `attemptedProviders`, emit
`trying`, run the attempt; return immediately on a result with at least one
holding, emit `failed` and continue on an error, continue silently on an
empty result; after the last candidate, resolve to the unavailable
sentinel. -/
def runWaterfall (b : FetchBehavior) (fund : FundMetadata) (today : String) :
    List ProviderInfo → WaterfallTrace
  | [] => { result := unavailableSentinel today, events := [], attempted := [], invoked := [] }
  | p :: rest =>
    if isRegistered p.provider then
      match b p.provider fund with
      | .ok r =>
        if r.holdings.length > 0 then
          { result := r,
            events := [tryingUpdate p.provider fund.symbol,
                       successUpdate p.provider fund.symbol r],
            attempted := [p.provider], invoked := [p.provider] }
        else
          let t := runWaterfall b fund today rest
          { result := t.result,
            events := tryingUpdate p.provider fund.symbol :: t.events,
            attempted := p.provider :: t.attempted,
            invoked := p.provider :: t.invoked }
      | .err m =>
        let t := runWaterfall b fund today rest
        { result := t.result,
          events := tryingUpdate p.provider fund.symbol ::
                    failedUpdate p.provider fund.symbol m :: t.events,
          attempted := p.provider :: t.attempted,
          invoked := p.provider :: t.invoked }
    else
      runWaterfall b fund today rest

/-- `fetchHoldingsWithProviders`: detect, then walk the ranked candidates. -/
def fetchHoldingsWithProviders (b : FetchBehavior) (today : String)
    (fund : FundMetadata) : WaterfallTrace :=
  runWaterfall b fund today (detectProviders fund).providers

/-- The provider names of the events with `trying` status, in order (what the
batch layer's tracking callback collects into `attemptedProviders`). -/
def tryingNames (events : List ProgressUpdate) : List String :=
  (events.filter (fun e => e.status == .trying)).map (fun e => e.provider)

/-- The `FundFetchResult` the batch loop builds for one fund.  Its
`attemptedProviders` comes from the tracking callback, i.e. from the `trying`
events of that fund's waterfall run. -/
def fundFetchResultFor (b : FetchBehavior) (today : String)
    (fund : FundMetadata) : FundFetchResult :=
  let t := fetchHoldingsWithProviders b today fund
  { symbol := fund.symbol,
    name := fund.name,
    status := if t.result.holdings.length > 0 then .success else .failed,
    provider := t.result.provider,
    holdingsCount := t.result.holdings.length,
    dataQuality := t.result.dataQuality,
    attemptedProviders := tryingNames t.events,
    error := if t.result.holdings.length = 0
             then some "No data available from any provider" else none }

/-- `fetchAllHoldingsWithProgress`: funds strictly sequentially, one
`FundFetchResult` per fund.  The cache write is an external collaborator whose
failure is caught and logged without touching the result, so it does not
appear in the trace. -/
def fetchAllHoldingsWithProgress (b : FetchBehavior) (today : String)
    (funds : List FundMetadata) : List FundFetchResult :=
  funds.map (fundFetchResultFor b today)

/-! ## Helper notions used by the verification -/

/-- Provider names of a candidate list, in order. -/
def namesOf (l : List ProviderInfo) : List String := l.map (fun p => p.provider)

/-- Maximum confidence contributed for a given provider name (0 when the name
was never contributed). -/
def maxConfFor : List ProviderInfo → String → Nat
  | [], _ => 0
  | p :: ps, n =>
    if p.provider == n then max p.confidence (maxConfFor ps n) else maxConfFor ps n

/-- Non-increasing-confidence adjacency used to express sortedness. -/
def confGE (a b : ProviderInfo) : Prop := b.confidence ≤ a.confidence

instance : DecidableRel confGE := fun a b =>
  inferInstanceAs (Decidable (b.confidence ≤ a.confidence))

/-- Invariant of the dedup fold relating the accumulated JS `Map` contents to
the entries already processed: distinct names, the same name set, and each
stored entry carrying the maximum confidence contributed so far. -/
def dedupInv (acc processed : List ProviderInfo) : Prop :=
  (namesOf acc).Nodup ∧
  (∀ n, n ∈ namesOf acc ↔ n ∈ namesOf processed) ∧
  (∀ q ∈ acc, q.confidence = maxConfFor processed q.provider)

/-! ## Concrete funds, holdings and behaviours used as witnesses -/

/-- A holding with just a security name. -/
def mkHolding (n : String) : FundHolding := { name := n }

/-- A concrete non-empty holdings list. -/
def threeHoldings : List FundHolding :=
  [mkHolding "Apple", mkHolding "Microsoft", mkHolding "Nvidia"]

/-- A concrete calendar date standing for the run date. -/
def todayStr : String := "2026-10-11"

/-- The iShares scenario fund of the specification. -/
def iwrdFund : FundMetadata :=
  { symbol := "IWRD", name := "iShares MSCI World UCITS ETF", isin := some "IE00B4L5Y983" }

/-- The BlackRock scenario fund of the specification. -/
def blackrockFund : FundMetadata :=
  { symbol := "B4VY989", name := "BlackRock Continental European Income Fund",
    isin := some "GB00B4VY9894" }

/-- A fund whose name triggers the unregistered "fidelity" candidate. -/
def fidelityFund : FundMetadata :=
  { symbol := "FID", name := "Fidelity Global Special Situations Fund" }

/-- A full successful result delivered under the given provider name. -/
def okFull (name : String) : HoldingsResult :=
  { holdings := threeHoldings, asOfDate := todayStr,
    dataQuality := .complete, provider := name }

/-- Behaviour where the first-ranked provider of `iwrdFund` (ishares) raises
and every other provider succeeds with three holdings. -/
def bFirstSuccess : FetchBehavior := fun name _ =>
  if name == "ishares" then .err "connection reset" else .ok (okFull name)

/-- Behaviour where every provider attempt raises. -/
def bAllErr : FetchBehavior := fun _ _ => .err "unreachable host"

/-- Batch behaviour: every attempt for the BlackRock fund raises, ishares
succeeds for other funds, everything else returns the empty result. -/
def bBatch : FetchBehavior := fun name fund =>
  if fund.symbol == "B4VY989" then .err "fetch failed"
  else if name == "ishares" then .ok (okFull name)
  else .ok (createEmptyResult todayStr name)

/-! ## Claim C1 — retry policy of `fetchWithRetry`

The loop body's 4xx abort is a `throw` placed inside the function's own
`try`, so its `catch` swallows it and the loop keeps retrying: a persistent
404 is retried exactly like a 500, against both the specification and the
comment right above that branch in the source. -/

/-- C1: evaluation of the embedded `fetchWithRetry` at the failing input.
With the default `maxRetries = 2`, a server that always answers 404 gets
three attempts (the claim and the source's own comment demand exactly one),
with the exponential backoff waits 500 ms and 1000 ms in between — identical
to the traces for a persistent 429, a persistent 500 and a persistent
network error, which the claim correctly says are retried to the maximum. -/
theorem fetchWithRetry_404_retried_bug :
    fetchWithRetry (fun _ => .resp 404 "Not Found") 2 =
      { outcome := .raise "HTTP 404: Not Found", attempts := 3, waits := [500, 1000] } ∧
    fetchWithRetry (fun _ => .resp 429 "Too Many Requests") 2 =
      { outcome := .raise "HTTP 429: Too Many Requests", attempts := 3, waits := [500, 1000] } ∧
    fetchWithRetry (fun _ => .resp 500 "Internal Server Error") 2 =
      { outcome := .raise "HTTP 500: Internal Server Error", attempts := 3, waits := [500, 1000] } ∧
    fetchWithRetry (fun _ => .netError "network down") 2 =
      { outcome := .raise "network down", attempts := 3, waits := [500, 1000] } ∧
    fetchWithRetry (fun n => if n < 1 then .resp 500 "ISE" else .resp 200 "OK") 2 =
      { outcome := .ok 200, attempts := 2, waits := [500] } := by
  decide

/-! ## Claim C4 — `determineDataQuality` -/

/-- C4 counterexample: `totalKnown = 0` is supplied and `5 ≥ 0.9 * 0` holds,
so the claim demands `complete`; the source's JS truthiness test
`if (totalKnown && ...)` treats the supplied 0 as absent and yields
`partial`. -/
theorem determineDataQuality_total_zero_cex :
    10 * 5 ≥ 9 * 0 ∧
    determineDataQuality 5 (some 0) = DataQuality.partialQuality ∧
    determineDataQuality 5 (some 0) ≠ DataQuality.complete := by
  decide

/-- C4 as amended: the 90%-of-total clause applies only when the supplied
total is nonzero (a zero total is falsy in the source and behaves like an
absent one); all other clauses and all four concrete instances of the claim
hold as stated. -/
theorem determineDataQuality_spec :
    (∀ t, determineDataQuality 0 t = DataQuality.unavailable) ∧
    (∀ hc t, 100 ≤ hc → determineDataQuality hc t = DataQuality.complete) ∧
    (∀ hc t, 0 < hc → hc < 100 → 0 < t → 10 * hc ≥ 9 * t →
      determineDataQuality hc (some t) = DataQuality.complete) ∧
    (∀ hc, 0 < hc → hc < 100 →
      determineDataQuality hc none = DataQuality.partialQuality) ∧
    (∀ hc t, 0 < hc → hc < 100 → (t = 0 ∨ 10 * hc < 9 * t) →
      determineDataQuality hc (some t) = DataQuality.partialQuality) ∧
    determineDataQuality 0 (some 7) = DataQuality.unavailable ∧
    determineDataQuality 100 (some 7) = DataQuality.complete ∧
    determineDataQuality 50 (some 50) = DataQuality.complete ∧
    determineDataQuality 50 (some 200) = DataQuality.partialQuality := by
  refine ⟨?_, ?_, ?_, ?_, ?_, by decide, by decide, by decide, by decide⟩
  · intro t
    unfold determineDataQuality
    rw [if_pos rfl]
  · intro hc t h
    unfold determineDataQuality
    rw [if_neg (by omega), if_pos (by omega)]
  · intro hc t h1 h2 h3 h4
    unfold determineDataQuality
    rw [if_neg (by omega), if_neg (by omega), if_pos]
    simp only [Bool.and_eq_true, decide_eq_true_eq]
    omega
  · intro hc h1 h2
    unfold determineDataQuality
    rw [if_neg (by omega), if_neg (by omega)]
    simp
  · intro hc t h1 h2 h3
    unfold determineDataQuality
    rw [if_neg (by omega), if_neg (by omega), if_neg]
    simp only [Bool.and_eq_true, decide_eq_true_eq]
    omega

/-- C4 witness: the amended theorem applied at concrete inputs. -/
theorem determineDataQuality_spec_witness :
    determineDataQuality 0 (some 3) = DataQuality.unavailable ∧
    determineDataQuality 150 none = DataQuality.complete ∧
    determineDataQuality 50 (some 50) = DataQuality.complete ∧
    determineDataQuality 7 none = DataQuality.partialQuality ∧
    determineDataQuality 50 (some 200) = DataQuality.partialQuality :=
  ⟨determineDataQuality_spec.1 (some 3),
   determineDataQuality_spec.2.1 150 none (by decide),
   determineDataQuality_spec.2.2.1 50 50 (by decide) (by decide) (by decide) (by decide),
   determineDataQuality_spec.2.2.2.1 7 (by decide) (by decide),
   determineDataQuality_spec.2.2.2.2.1 50 200 (by decide) (by decide) (Or.inr (by decide))⟩

/-- The five candidates the detector produces for `iwrdFund`, in order. -/
def isharesEntry : ProviderInfo :=
  { provider := "ishares", region := "global", fundType := "etf", confidence := 95 }

/-- Second-ranked candidate for `iwrdFund` (from the symbol-shape signal). -/
def yahooEntry : ProviderInfo :=
  { provider := "yahoo", region := "us", fundType := "etf", confidence := 75 }

/-- Third-ranked candidate for `iwrdFund` (from the Ireland ISIN signal). -/
def vanguardEntry : ProviderInfo :=
  { provider := "vanguard", region := "ie", fundType := "etf", confidence := 70 }

/-- Fourth-ranked candidate for `iwrdFund` (from the ticker-shape signal). -/
def ftEntry : ProviderInfo :=
  { provider := "ft-scraper", region := "uk", fundType := "trust", confidence := 65 }

/-- Last-ranked candidate for `iwrdFund` (universal fallback). -/
def morningstarEntry : ProviderInfo :=
  { provider := "morningstar", region := "global", fundType := "any", confidence := 40 }

/-- The candidate the detector emits for a "fidelity" fund name; no fetcher
of that name is registered. -/
def fidelityEntry : ProviderInfo :=
  { provider := "fidelity", region := "global", fundType := "mutual", confidence := 90 }

/-! ## Lemmas about deduplication and sorting -/

theorem maxConfFor_append (ps qs : List ProviderInfo) (n : String) :
    maxConfFor (ps ++ qs) n = max (maxConfFor ps n) (maxConfFor qs n) := by
  induction ps with
  | nil => simp [maxConfFor]
  | cons p ps ih =>
    simp only [List.cons_append, maxConfFor, List.append_eq, ih]
    split
    · exact (Nat.max_assoc _ _ _).symm
    · rfl

theorem maxConfFor_of_not_mem :
    ∀ (ps : List ProviderInfo) (n : String), n ∉ namesOf ps → maxConfFor ps n = 0
  | [], _, _ => rfl
  | p :: ps, n, h => by
    simp only [namesOf, List.map_cons, List.mem_cons, not_or] at h
    simp only [maxConfFor]
    rw [if_neg fun hb => h.1 (beq_iff_eq.mp hb).symm]
    exact maxConfFor_of_not_mem ps n h.2

theorem replEntry_provider (p q : ProviderInfo) : (replEntry p q).provider = q.provider := by
  unfold replEntry
  split
  · next h => exact (beq_iff_eq.mp (Bool.and_eq_true_iff.mp h).1).symm
  · rfl

theorem replEntry_confidence (p q : ProviderInfo) (h : q.provider = p.provider) :
    (replEntry p q).confidence = max q.confidence p.confidence := by
  unfold replEntry
  by_cases hc : q.confidence < p.confidence
  · rw [if_pos]
    · omega
    · simp [h, hc]
  · rw [if_neg]
    · omega
    · simp [h, hc]

theorem replEntry_of_ne (p q : ProviderInfo) (h : q.provider ≠ p.provider) :
    replEntry p q = q := by
  unfold replEntry
  rw [if_neg]
  simp [h]

theorem namesOf_map_replEntry (p : ProviderInfo) (acc : List ProviderInfo) :
    namesOf (acc.map (replEntry p)) = namesOf acc := by
  unfold namesOf
  rw [List.map_map]
  exact List.map_congr_left fun q _ => replEntry_provider p q

theorem namesOf_append (l₁ l₂ : List ProviderInfo) :
    namesOf (l₁ ++ l₂) = namesOf l₁ ++ namesOf l₂ := List.map_append _ _ _

theorem dedupInv_insert {acc processed : List ProviderInfo} (p : ProviderInfo)
    (h : dedupInv acc processed) : dedupInv (insertDedup acc p) (processed ++ [p]) := by
  obtain ⟨hnd, hiff, hconf⟩ := h
  have hmax1 : maxConfFor [p] p.provider = p.confidence := by
    simp [maxConfFor]
  unfold insertDedup
  by_cases hmem : (acc.any fun q => q.provider == p.provider) = true
  · rw [if_pos hmem]
    have hpmem : p.provider ∈ namesOf acc := by
      rcases List.any_eq_true.mp hmem with ⟨q, hq, hqe⟩
      exact List.mem_map.mpr ⟨q, hq, beq_iff_eq.mp hqe⟩
    refine ⟨?_, ?_, ?_⟩
    · rw [namesOf_map_replEntry]; exact hnd
    · intro n
      rw [namesOf_map_replEntry, namesOf_append]
      simp only [List.mem_append, namesOf, List.map_cons, List.map_nil,
        List.mem_singleton]
      constructor
      · intro hn
        exact Or.inl ((hiff n).mp hn)
      · rintro (hn | rfl)
        · exact (hiff n).mpr hn
        · exact hpmem
    · intro q' hq'
      rcases List.mem_map.mp hq' with ⟨q, hq, rfl⟩
      rw [replEntry_provider, maxConfFor_append]
      by_cases hqp : q.provider = p.provider
      · rw [replEntry_confidence p q hqp, hconf q hq, hqp]
        rw [hmax1]
      · rw [replEntry_of_ne p q hqp, hconf q hq]
        rw [maxConfFor_of_not_mem [p] q.provider (by simp [namesOf, hqp])]
        omega
  · rw [if_neg hmem]
    have hpnot : p.provider ∉ namesOf acc := by
      intro hc
      rcases List.mem_map.mp hc with ⟨q, hq, hqe⟩
      exact hmem (List.any_eq_true.mpr ⟨q, hq, beq_iff_eq.mpr hqe⟩)
    refine ⟨?_, ?_, ?_⟩
    · rw [namesOf_append]
      simp only [namesOf, List.map_cons, List.map_nil]
      refine List.nodup_append.mpr ⟨hnd, List.nodup_singleton _, ?_⟩
      intro a ha hb
      rw [List.mem_singleton] at hb
      exact hpnot (hb ▸ ha)
    · intro n
      rw [namesOf_append, namesOf_append]
      simp only [List.mem_append, namesOf, List.map_cons, List.map_nil,
        List.mem_singleton]
      exact or_congr_left (hiff n)
    · intro q' hq'
      rcases List.mem_append.mp hq' with hq | hq
      · rw [maxConfFor_append, hconf q' hq]
        have hne : q'.provider ≠ p.provider := fun he =>
          hpnot (he ▸ List.mem_map.mpr ⟨q', hq, rfl⟩)
        rw [maxConfFor_of_not_mem [p] q'.provider (by simp [namesOf, hne])]
        omega
      · rcases List.mem_singleton.mp hq with rfl
        rw [maxConfFor_append, hmax1]
        rw [maxConfFor_of_not_mem processed q'.provider
          (fun hn => hpnot ((hiff q'.provider).mpr hn))]
        omega

theorem dedupInv_foldl :
    ∀ (ps acc processed : List ProviderInfo), dedupInv acc processed →
      dedupInv (ps.foldl insertDedup acc) (processed ++ ps)
  | [], acc, processed, h => by simpa using h
  | p :: ps, acc, processed, h => by
    have h2 := dedupInv_foldl ps (insertDedup acc p) (processed ++ [p])
      (dedupInv_insert p h)
    simpa using h2

theorem dedupInv_deduplicate (ps : List ProviderInfo) :
    dedupInv (deduplicateProviders ps) ps := by
  have h0 : dedupInv [] [] :=
    ⟨List.nodup_nil, fun n => Iff.rfl, fun q hq => absurd hq (List.not_mem_nil q)⟩
  have := dedupInv_foldl ps [] [] h0
  simpa [deduplicateProviders] using this

theorem insertDesc_perm (p : ProviderInfo) :
    ∀ l : List ProviderInfo, List.Perm (insertDesc p l) (p :: l)
  | [] => List.Perm.refl _
  | q :: qs => by
    unfold insertDesc
    split
    · exact List.Perm.refl _
    · exact ((insertDesc_perm p qs).cons q).trans (List.Perm.swap p q qs)

theorem sortDesc_perm : ∀ l : List ProviderInfo, List.Perm (sortDesc l) l
  | [] => List.Perm.refl _
  | p :: ps =>
    (insertDesc_perm p (sortDesc ps)).trans ((sortDesc_perm ps).cons p)

theorem insertDesc_chain' (p : ProviderInfo) :
    ∀ l : List ProviderInfo, List.Chain' confGE l →
      List.Chain' confGE (insertDesc p l)
  | [], _ => List.chain'_singleton p
  | q :: qs, h => by
    unfold insertDesc
    split
    · next hle =>
      exact List.Chain'.cons hle h
    · next hgt =>
      have hq : confGE q p := by
        unfold confGE
        omega
      rcases List.chain'_cons'.mp h with ⟨hhead, htail⟩
      refine List.chain'_cons'.mpr ⟨?_, insertDesc_chain' p qs htail⟩
      intro y hy
      cases qs with
      | nil =>
        simp only [insertDesc, List.head?_cons, Option.mem_def,
          Option.some.injEq] at hy
        exact hy ▸ hq
      | cons r rs =>
        revert hy
        unfold insertDesc
        split
        · intro hy
          simp only [List.head?_cons, Option.mem_def, Option.some.injEq] at hy
          exact hy ▸ hq
        · intro hy
          simp only [List.head?_cons, Option.mem_def, Option.some.injEq] at hy
          exact hy ▸ hhead r rfl

theorem sortDesc_chain' : ∀ l : List ProviderInfo, List.Chain' confGE (sortDesc l)
  | [] => List.chain'_nil
  | p :: ps => insertDesc_chain' p (sortDesc ps) (sortDesc_chain' ps)

/-! ## Detector-level lemmas -/

theorem detectProviders_providers_eq (m : FundMetadata) :
    (detectProviders m).providers = sortDesc (deduplicateProviders (rawProviders m)) := by
  unfold detectProviders
  rfl

theorem detectProviders_names_nodup (m : FundMetadata) :
    (namesOf (detectProviders m).providers).Nodup := by
  rw [detectProviders_providers_eq]
  have h := (dedupInv_deduplicate (rawProviders m)).1
  unfold namesOf at h ⊢
  exact ((sortDesc_perm (deduplicateProviders (rawProviders m))).map
    (fun p => p.provider)).nodup_iff.mpr h

theorem detectProviders_mem_names (m : FundMetadata) (n : String) :
    n ∈ namesOf (detectProviders m).providers ↔ n ∈ namesOf (rawProviders m) := by
  rw [detectProviders_providers_eq]
  have h2 := (dedupInv_deduplicate (rawProviders m)).2.1 n
  unfold namesOf at h2 ⊢
  exact Iff.trans
    (((sortDesc_perm (deduplicateProviders (rawProviders m))).map
      (fun p => p.provider)).mem_iff) h2

theorem detectProviders_conf_max (m : FundMetadata) :
    ∀ q ∈ (detectProviders m).providers,
      q.confidence = maxConfFor (rawProviders m) q.provider := by
  intro q hq
  rw [detectProviders_providers_eq] at hq
  exact (dedupInv_deduplicate (rawProviders m)).2.2 q
    ((sortDesc_perm (deduplicateProviders (rawProviders m))).mem_iff.mp hq)

theorem detectProviders_sorted (m : FundMetadata) :
    List.Chain' confGE (detectProviders m).providers := by
  rw [detectProviders_providers_eq]
  exact sortDesc_chain' (deduplicateProviders (rawProviders m))

/-! ## Claim C6 — deduplication, maximum confidence, ordering, determinism -/

/-- C6: for every fund metadata, the detector's provider list has pairwise
distinct provider names; each kept entry's confidence is the maximum
confidence contributed for that name across all signals (`rawProviders` is
the pre-dedup contribution list); exactly the contributed names survive; the
list is in non-increasing confidence order; and the function is
deterministic (it is a pure function of its input). -/
theorem detectProviders_dedup_max_sorted (m : FundMetadata) :
    (namesOf (detectProviders m).providers).Nodup ∧
    (∀ q ∈ (detectProviders m).providers,
       q.confidence = maxConfFor (rawProviders m) q.provider) ∧
    (∀ n, n ∈ namesOf (detectProviders m).providers ↔ n ∈ namesOf (rawProviders m)) ∧
    List.Chain' confGE (detectProviders m).providers ∧
    (∀ m₂, m = m₂ → detectProviders m = detectProviders m₂) :=
  ⟨detectProviders_names_nodup m, detectProviders_conf_max m,
   detectProviders_mem_names m, detectProviders_sorted m,
   fun _ h => h ▸ rfl⟩

/-- C6 witness: the theorem applied to the iShares scenario fund; the "yahoo"
entry kept at confidence 75 is indeed the maximum of the contributions
75 (symbol shape) and 60 (universal fallback). -/
theorem detectProviders_dedup_max_sorted_witness :
    (namesOf (detectProviders iwrdFund).providers).Nodup ∧
    yahooEntry.confidence = maxConfFor (rawProviders iwrdFund) yahooEntry.provider ∧
    ("yahoo" ∈ namesOf (detectProviders iwrdFund).providers ↔
      "yahoo" ∈ namesOf (rawProviders iwrdFund)) ∧
    List.Chain' confGE (detectProviders iwrdFund).providers := by
  have h := detectProviders_dedup_max_sorted iwrdFund
  exact ⟨h.1, h.2.1 yahooEntry (by decide), h.2.2.1 "yahoo", h.2.2.2.1⟩

/-! ## Claim C5 — universal fallback providers always present -/

/-- C5: for every fund metadata, the detector output is non-empty and
contains an entry for each of the two universal fallback providers
("yahoo", appended at confidence 60, and "morningstar", appended at
confidence 40), whatever the name/ISIN/symbol signals did. -/
theorem detectProviders_universal_fallbacks (m : FundMetadata) :
    (detectProviders m).providers ≠ [] ∧
    (∃ q ∈ (detectProviders m).providers, q.provider = "yahoo") ∧
    (∃ q ∈ (detectProviders m).providers, q.provider = "morningstar") := by
  have hy : ∃ q ∈ (detectProviders m).providers, q.provider = "yahoo" := by
    have h1 : "yahoo" ∈ namesOf (rawProviders m) := by
      simp [namesOf, rawProviders, fallbackProviders]
    have h2 := (detectProviders_mem_names m "yahoo").mpr h1
    simpa [namesOf, List.mem_map] using h2
  have hm : ∃ q ∈ (detectProviders m).providers, q.provider = "morningstar" := by
    have h1 : "morningstar" ∈ namesOf (rawProviders m) := by
      simp [namesOf, rawProviders, fallbackProviders]
    have h2 := (detectProviders_mem_names m "morningstar").mpr h1
    simpa [namesOf, List.mem_map] using h2
  refine ⟨?_, hy, hm⟩
  rcases hy with ⟨q, hq, _⟩
  intro hnil
  rw [hnil] at hq
  exact List.not_mem_nil q hq

/-! ## Waterfall lemmas -/

theorem tryingNames_nil : tryingNames [] = [] := rfl

theorem tryingNames_cons_trying (name fs : String) (evs : List ProgressUpdate) :
    tryingNames (tryingUpdate name fs :: evs) = name :: tryingNames evs := by
  simp [tryingNames, tryingUpdate]

theorem tryingNames_cons_failed (name fs m : String) (evs : List ProgressUpdate) :
    tryingNames (failedUpdate name fs m :: evs) = tryingNames evs := by
  simp [tryingNames, failedUpdate]

theorem tryingNames_cons_success (name fs : String) (r : HoldingsResult)
    (evs : List ProgressUpdate) :
    tryingNames (successUpdate name fs r :: evs) = tryingNames evs := by
  simp [tryingNames, successUpdate]

theorem runWaterfall_skip (b : FetchBehavior) (fund : FundMetadata) (today : String)
    (p : ProviderInfo) (rest : List ProviderInfo)
    (h : isRegistered p.provider = false) :
    runWaterfall b fund today (p :: rest) = runWaterfall b fund today rest := by
  conv_lhs => unfold runWaterfall
  rw [h]
  simp

theorem runWaterfall_attempted_eq_tryingNames :
    ∀ (b : FetchBehavior) (fund : FundMetadata) (today : String)
      (cs : List ProviderInfo),
      (runWaterfall b fund today cs).attempted =
        tryingNames (runWaterfall b fund today cs).events
  | _, _, _, [] => by simp [runWaterfall, tryingNames]
  | b, fund, today, p :: rest => by
    by_cases hreg : isRegistered p.provider = true
    · unfold runWaterfall
      rw [hreg]
      simp only [if_true]
      cases hb : b p.provider fund with
      | ok r =>
        by_cases hlen : r.holdings.length > 0
        · simp only [hlen, if_true, if_pos hlen]
          rw [tryingNames_cons_trying, tryingNames_cons_success, tryingNames_nil]
        · simp only [if_neg hlen]
          rw [tryingNames_cons_trying,
            runWaterfall_attempted_eq_tryingNames b fund today rest]
      | err m =>
        rw [tryingNames_cons_trying, tryingNames_cons_failed,
          runWaterfall_attempted_eq_tryingNames b fund today rest]
    · rw [runWaterfall_skip b fund today p rest (by simpa using hreg)]
      exact runWaterfall_attempted_eq_tryingNames b fund today rest

theorem runWaterfall_cons_success (b : FetchBehavior) (fund : FundMetadata)
    (today : String) (p : ProviderInfo) (rest : List ProviderInfo)
    (r : HoldingsResult) (hreg : isRegistered p.provider = true)
    (hok : b p.provider fund = .ok r) (hlen : r.holdings.length > 0) :
    runWaterfall b fund today (p :: rest) =
      { result := r,
        events := [tryingUpdate p.provider fund.symbol,
                   successUpdate p.provider fund.symbol r],
        attempted := [p.provider], invoked := [p.provider] } := by
  conv_lhs => unfold runWaterfall
  rw [hreg]
  simp only [if_true, hok]
  rw [if_pos hlen]

theorem runWaterfall_cons_empty (b : FetchBehavior) (fund : FundMetadata)
    (today : String) (p : ProviderInfo) (rest : List ProviderInfo)
    (r : HoldingsResult) (hreg : isRegistered p.provider = true)
    (hok : b p.provider fund = .ok r) (hlen : ¬r.holdings.length > 0) :
    runWaterfall b fund today (p :: rest) =
      { result := (runWaterfall b fund today rest).result,
        events := tryingUpdate p.provider fund.symbol ::
                  (runWaterfall b fund today rest).events,
        attempted := p.provider :: (runWaterfall b fund today rest).attempted,
        invoked := p.provider :: (runWaterfall b fund today rest).invoked } := by
  conv_lhs => unfold runWaterfall
  rw [hreg]
  simp only [if_true, hok]
  rw [if_neg hlen]

theorem runWaterfall_cons_err (b : FetchBehavior) (fund : FundMetadata)
    (today : String) (p : ProviderInfo) (rest : List ProviderInfo)
    (m : String) (hreg : isRegistered p.provider = true)
    (herr : b p.provider fund = .err m) :
    runWaterfall b fund today (p :: rest) =
      { result := (runWaterfall b fund today rest).result,
        events := tryingUpdate p.provider fund.symbol ::
                  failedUpdate p.provider fund.symbol m ::
                  (runWaterfall b fund today rest).events,
        attempted := p.provider :: (runWaterfall b fund today rest).attempted,
        invoked := p.provider :: (runWaterfall b fund today rest).invoked } := by
  conv_lhs => unfold runWaterfall
  rw [hreg]
  simp only [if_true, herr]

theorem runWaterfall_first_success :
    ∀ (b : FetchBehavior) (fund : FundMetadata) (today : String)
      (pre : List ProviderInfo) (p : ProviderInfo) (rest : List ProviderInfo)
      (r : HoldingsResult),
      (∀ q ∈ pre, isRegistered q.provider = false ∨ errOrEmpty (b q.provider fund) = true) →
      isRegistered p.provider = true →
      b p.provider fund = .ok r →
      r.holdings ≠ [] →
      (runWaterfall b fund today (pre ++ p :: rest)).result = r ∧
      (runWaterfall b fund today (pre ++ p :: rest)).invoked =
        namesOf (pre.filter (fun q => isRegistered q.provider)) ++ [p.provider]
  | b, fund, today, [], p, rest, r, _, hreg, hok, hne => by
    rw [List.nil_append,
      runWaterfall_cons_success b fund today p rest r hreg hok
        (List.length_pos.mpr hne)]
    exact ⟨rfl, by simp [namesOf]⟩
  | b, fund, today, q :: pre, p, rest, r, hpre, hreg, hok, hne => by
    have hq := hpre q (List.mem_cons_self q pre)
    have hpre' : ∀ x ∈ pre, isRegistered x.provider = false ∨
        errOrEmpty (b x.provider fund) = true :=
      fun x hx => hpre x (List.mem_cons_of_mem q hx)
    have ih := runWaterfall_first_success b fund today pre p rest r hpre' hreg hok hne
    rcases hq with hqreg | hqfail
    · rw [List.cons_append, runWaterfall_skip b fund today q _ hqreg,
        List.filter_cons_of_neg (by simp [hqreg])]
      exact ih
    · by_cases hqreg : isRegistered q.provider = true
      · rw [List.cons_append, List.filter_cons_of_pos (by simp [hqreg])]
        cases hb : b q.provider fund with
        | ok r' =>
          have hempty : ¬(r'.holdings.length > 0) := by
            rw [hb] at hqfail
            simp only [errOrEmpty, List.isEmpty_iff] at hqfail
            simp [hqfail]
          rw [runWaterfall_cons_empty b fund today q _ r' hqreg hb hempty]
          refine ⟨ih.1, ?_⟩
          simp only [namesOf, List.map_cons, List.cons_append]
          rw [show namesOf (List.filter (fun q => isRegistered q.provider) pre) =
            List.map (fun p => p.provider)
              (List.filter (fun q => isRegistered q.provider) pre) from rfl] at ih
          rw [ih.2]
        | err m =>
          rw [runWaterfall_cons_err b fund today q _ m hqreg hb]
          refine ⟨ih.1, ?_⟩
          simp only [namesOf, List.map_cons, List.cons_append]
          rw [show namesOf (List.filter (fun q => isRegistered q.provider) pre) =
            List.map (fun p => p.provider)
              (List.filter (fun q => isRegistered q.provider) pre) from rfl] at ih
          rw [ih.2]
      · rw [List.cons_append,
          runWaterfall_skip b fund today q _ (by simpa using hqreg),
          List.filter_cons_of_neg (by simpa using hqreg)]
        exact ih

theorem runWaterfall_exhausted :
    ∀ (b : FetchBehavior) (fund : FundMetadata) (today : String)
      (cs : List ProviderInfo),
      (∀ q ∈ cs, isRegistered q.provider = false ∨ errOrEmpty (b q.provider fund) = true) →
      (runWaterfall b fund today cs).result = unavailableSentinel today
  | _, _, _, [], _ => rfl
  | b, fund, today, q :: cs, h => by
    have hq := h q (List.mem_cons_self q cs)
    have h' : ∀ x ∈ cs, isRegistered x.provider = false ∨
        errOrEmpty (b x.provider fund) = true :=
      fun x hx => h x (List.mem_cons_of_mem q hx)
    have ih := runWaterfall_exhausted b fund today cs h'
    rcases hq with hqreg | hqfail
    · rw [runWaterfall_skip b fund today q cs hqreg]
      exact ih
    · by_cases hqreg : isRegistered q.provider = true
      · cases hb : b q.provider fund with
        | ok r' =>
          have hempty : ¬(r'.holdings.length > 0) := by
            rw [hb] at hqfail
            simp only [errOrEmpty, List.isEmpty_iff] at hqfail
            simp [hqfail]
          rw [runWaterfall_cons_empty b fund today q cs r' hqreg hb hempty]
          exact ih
        | err m =>
          rw [runWaterfall_cons_err b fund today q cs m hqreg hb]
          exact ih
      · rw [runWaterfall_skip b fund today q cs (by simpa using hqreg)]
        exact ih

theorem runWaterfall_result_quality_inv :
    ∀ (b : FetchBehavior) (fund : FundMetadata) (today : String)
      (cs : List ProviderInfo),
      (∀ name r, b name fund = .ok r →
        (r.holdings = [] ↔ r.dataQuality = .unavailable)) →
      ((runWaterfall b fund today cs).result.holdings = [] ↔
        (runWaterfall b fund today cs).result.dataQuality = .unavailable)
  | _, _, _, [], _ => by
    constructor
    · intro _; rfl
    · intro _; rfl
  | b, fund, today, q :: cs, hb => by
    have ih := runWaterfall_result_quality_inv b fund today cs hb
    by_cases hqreg : isRegistered q.provider = true
    · cases hfetch : b q.provider fund with
      | ok r' =>
        by_cases hlen : r'.holdings.length > 0
        · rw [runWaterfall_cons_success b fund today q cs r' hqreg hfetch hlen]
          have hne : r'.holdings ≠ [] := List.length_pos.mp hlen
          have hq := hb q.provider r' hfetch
          constructor
          · intro hc; exact absurd hc hne
          · intro hc; exact absurd (hq.mpr hc) hne
        · rw [runWaterfall_cons_empty b fund today q cs r' hqreg hfetch hlen]
          exact ih
      | err m =>
        rw [runWaterfall_cons_err b fund today q cs m hqreg hfetch]
        exact ih
    · rw [runWaterfall_skip b fund today q cs (by simpa using hqreg)]
      exact ih

theorem none_not_registered : isRegistered "none" = false := by decide

theorem runWaterfall_empty_iff_none :
    ∀ (b : FetchBehavior) (fund : FundMetadata) (today : String)
      (cs : List ProviderInfo),
      (∀ name r, b name fund = .ok r → r.provider = name) →
      ((runWaterfall b fund today cs).result.holdings = [] ↔
        (runWaterfall b fund today cs).result.provider = "none")
  | _, _, _, [], _ => by
    constructor
    · intro _; rfl
    · intro _; rfl
  | b, fund, today, q :: cs, hb => by
    have ih := runWaterfall_empty_iff_none b fund today cs hb
    by_cases hqreg : isRegistered q.provider = true
    · cases hfetch : b q.provider fund with
      | ok r' =>
        by_cases hlen : r'.holdings.length > 0
        · rw [runWaterfall_cons_success b fund today q cs r' hqreg hfetch hlen]
          have hne : r'.holdings ≠ [] := List.length_pos.mp hlen
          have hname : r'.provider = q.provider := hb q.provider r' hfetch
          constructor
          · intro hc; exact absurd hc hne
          · intro hc
            rw [hname] at hc
            rw [hc] at hqreg
            rw [none_not_registered] at hqreg
            cases hqreg
        · rw [runWaterfall_cons_empty b fund today q cs r' hqreg hfetch hlen]
          exact ih
      | err m =>
        rw [runWaterfall_cons_err b fund today q cs m hqreg hfetch]
        exact ih
    · rw [runWaterfall_skip b fund today q cs (by simpa using hqreg)]
      exact ih

theorem runWaterfall_all_registered :
    ∀ (b : FetchBehavior) (fund : FundMetadata) (today : String)
      (cs : List ProviderInfo),
      (∀ e ∈ (runWaterfall b fund today cs).events, isRegistered e.provider = true) ∧
      (∀ n ∈ (runWaterfall b fund today cs).attempted, isRegistered n = true) ∧
      (∀ n ∈ (runWaterfall b fund today cs).invoked, isRegistered n = true)
  | _, _, _, [] => by
    refine ⟨?_, ?_, ?_⟩ <;> intro x hx <;> cases hx
  | b, fund, today, q :: cs => by
    have ih := runWaterfall_all_registered b fund today cs
    by_cases hqreg : isRegistered q.provider = true
    · cases hfetch : b q.provider fund with
      | ok r' =>
        by_cases hlen : r'.holdings.length > 0
        · rw [runWaterfall_cons_success b fund today q cs r' hqreg hfetch hlen]
          refine ⟨?_, ?_, ?_⟩ <;> intro x hx <;>
            simp only [List.mem_cons, List.mem_singleton, List.not_mem_nil,
              or_false] at hx
          · rcases hx with rfl | rfl
            · exact hqreg
            · exact hqreg
          · rcases hx with rfl
            exact hqreg
          · rcases hx with rfl
            exact hqreg
        · rw [runWaterfall_cons_empty b fund today q cs r' hqreg hfetch hlen]
          refine ⟨?_, ?_, ?_⟩ <;> intro x hx <;> rcases List.mem_cons.mp hx with rfl | hx
          · exact hqreg
          · exact ih.1 x hx
          · exact hqreg
          · exact ih.2.1 x hx
          · exact hqreg
          · exact ih.2.2 x hx
      | err m =>
        rw [runWaterfall_cons_err b fund today q cs m hqreg hfetch]
        refine ⟨?_, ?_, ?_⟩ <;> intro x hx
        · rcases List.mem_cons.mp hx with rfl | hx
          · exact hqreg
          · rcases List.mem_cons.mp hx with rfl | hx
            · exact hqreg
            · exact ih.1 x hx
        · rcases List.mem_cons.mp hx with rfl | hx
          · exact hqreg
          · exact ih.2.1 x hx
        · rcases List.mem_cons.mp hx with rfl | hx
          · exact hqreg
          · exact ih.2.2 x hx
    · rw [runWaterfall_skip b fund today q cs (by simpa using hqreg)]
      exact ih

/-! ## Claim C2 — first-success-wins waterfall -/

/-- C2: when the detector's candidate list splits as `pre ++ p :: rest` where
every earlier candidate is unregistered or fails (error or zero holdings) and
`p` is registered and settles with a non-empty result `r`, the waterfall
returns exactly `r`, the invoked providers are precisely the registered
earlier candidates followed by `p`, and no later candidate is ever
invoked. -/
theorem fetchHoldingsWithProviders_first_success (b : FetchBehavior)
    (fund : FundMetadata) (today : String)
    (pre : List ProviderInfo) (p : ProviderInfo) (rest : List ProviderInfo)
    (r : HoldingsResult)
    (hsplit : (detectProviders fund).providers = pre ++ p :: rest)
    (hpre : ∀ q ∈ pre, isRegistered q.provider = false ∨
      errOrEmpty (b q.provider fund) = true)
    (hreg : isRegistered p.provider = true)
    (hok : b p.provider fund = .ok r)
    (hne : r.holdings ≠ []) :
    (fetchHoldingsWithProviders b today fund).result = r ∧
    (fetchHoldingsWithProviders b today fund).invoked =
      namesOf (pre.filter (fun q => isRegistered q.provider)) ++ [p.provider] ∧
    ∀ q ∈ rest, q.provider ∉ (fetchHoldingsWithProviders b today fund).invoked := by
  have h := runWaterfall_first_success b fund today pre p rest r hpre hreg hok hne
  unfold fetchHoldingsWithProviders
  rw [hsplit]
  refine ⟨h.1, h.2, ?_⟩
  intro q hq hmem
  rw [h.2] at hmem
  have hnodup := detectProviders_names_nodup fund
  rw [hsplit] at hnodup
  have hnodup' : (namesOf pre ++ namesOf (p :: rest)).Nodup := by
    rw [← namesOf_append]
    exact hnodup
  rcases List.mem_append.mp hmem with hmem | hmem
  · have h1 : q.provider ∈ namesOf pre := by
      rcases List.mem_map.mp hmem with ⟨x, hx, hxe⟩
      exact List.mem_map.mpr ⟨x, List.mem_of_mem_filter hx, hxe⟩
    have h2 : q.provider ∈ namesOf (p :: rest) :=
      List.mem_map.mpr ⟨q, List.mem_cons_of_mem p hq, rfl⟩
    exact (List.nodup_append.mp hnodup').2.2 h1 h2
  · rw [List.mem_singleton] at hmem
    have hnodup2 : (namesOf (p :: rest)).Nodup := (List.nodup_append.mp hnodup').2.1
    simp only [namesOf, List.map_cons, List.nodup_cons] at hnodup2
    exact hnodup2.1 (hmem ▸ List.mem_map.mpr ⟨q, hq, rfl⟩)

/-- C2 witness: for the iShares scenario fund with ishares failing and yahoo
(the next candidate) succeeding with three holdings, the waterfall returns the
yahoo result, invokes exactly ishares then yahoo, and never invokes the
lower-ranked vanguard candidate. -/
theorem fetchHoldingsWithProviders_first_success_witness :
    (fetchHoldingsWithProviders bFirstSuccess todayStr iwrdFund).result =
      okFull "yahoo" ∧
    (fetchHoldingsWithProviders bFirstSuccess todayStr iwrdFund).invoked =
      ["ishares", "yahoo"] ∧
    vanguardEntry.provider ∉
      (fetchHoldingsWithProviders bFirstSuccess todayStr iwrdFund).invoked := by
  have h := fetchHoldingsWithProviders_first_success bFirstSuccess iwrdFund todayStr
    [isharesEntry] yahooEntry [vanguardEntry, ftEntry, morningstarEntry]
    (okFull "yahoo") (by decide) (by decide) (by decide) (by decide) (by decide)
  refine ⟨h.1, ?_, h.2.2 vanguardEntry (by decide)⟩
  rw [h.2.1]
  decide

/-! ## Claim C3 — total waterfall, canonical unavailable sentinel -/

/-- C3: the waterfall is a total function into `HoldingsResult` (every
provider error is absorbed inside the loop by construction of the embedding),
and whenever every candidate is unregistered or fails to deliver a holding,
it resolves to the canonical sentinel: empty holdings, today's date, quality
unavailable, provider name "none". -/
theorem fetchHoldingsWithProviders_exhausted_sentinel (b : FetchBehavior)
    (fund : FundMetadata) (today : String)
    (h : ∀ q ∈ (detectProviders fund).providers,
      isRegistered q.provider = false ∨ errOrEmpty (b q.provider fund) = true) :
    (fetchHoldingsWithProviders b today fund).result =
      { holdings := [], asOfDate := today, dataQuality := .unavailable,
        provider := "none" } :=
  runWaterfall_exhausted b fund today (detectProviders fund).providers h

/-- C3 witness: for the fidelity-named fund with every provider attempt
raising, the waterfall resolves to the sentinel. -/
theorem fetchHoldingsWithProviders_exhausted_sentinel_witness :
    (fetchHoldingsWithProviders bAllErr todayStr fidelityFund).result =
      { holdings := [], asOfDate := todayStr, dataQuality := .unavailable,
        provider := "none" } :=
  fetchHoldingsWithProviders_exhausted_sentinel bAllErr fidelityFund todayStr
    (by decide)

/-! ## Claim C8 — holdings empty iff quality unavailable -/

/-- C8: the quality classifier returns `unavailable` exactly for a zero
holdings count; the empty-result constructor pairs empty holdings with
`unavailable`; and the waterfall's resolved result satisfies
`holdings = [] ↔ dataQuality = unavailable` whenever every provider result it
can consume does (which is how the providers build results, via the shared
classifier). -/
theorem holdingsResult_empty_iff_unavailable :
    (∀ hc tk, determineDataQuality hc tk = .unavailable ↔ hc = 0) ∧
    (∀ today p, (createEmptyResult today p).holdings = [] ∧
      (createEmptyResult today p).dataQuality = .unavailable) ∧
    (∀ (b : FetchBehavior) (fund : FundMetadata) (today : String),
      (∀ name r, b name fund = .ok r →
        (r.holdings = [] ↔ r.dataQuality = .unavailable)) →
      ((fetchHoldingsWithProviders b today fund).result.holdings = [] ↔
        (fetchHoldingsWithProviders b today fund).result.dataQuality = .unavailable)) := by
  have h3 : ∀ (b : FetchBehavior) (fund : FundMetadata) (today : String),
      (∀ name r, b name fund = .ok r →
        (r.holdings = [] ↔ r.dataQuality = .unavailable)) →
      ((fetchHoldingsWithProviders b today fund).result.holdings = [] ↔
        (fetchHoldingsWithProviders b today fund).result.dataQuality =
          .unavailable) := by
    intro b fund today hb
    unfold fetchHoldingsWithProviders
    exact runWaterfall_result_quality_inv b fund today
      (detectProviders fund).providers hb
  refine ⟨?_, fun _ _ => ⟨rfl, rfl⟩, h3⟩
  intro hc tk
  unfold determineDataQuality
  by_cases h0 : hc = 0
  · subst h0
    simp
  · rw [if_neg h0]
    constructor
    · intro h
      exfalso
      revert h
      split
      · exact fun h => by cases h
      · split
        · exact fun h => by cases h
        · exact fun h => by cases h
    · intro h
      exact absurd h h0

/-- C8 witness: the classifier and constructor clauses at concrete inputs,
and the waterfall clause for the iShares scenario fund under the behaviour
whose provider results all satisfy the invariant. -/
theorem holdingsResult_empty_iff_unavailable_witness :
    (determineDataQuality 0 (some 5) = .unavailable ↔ (0 : Nat) = 0) ∧
    (determineDataQuality 42 none = .unavailable ↔ (42 : Nat) = 0) ∧
    ((createEmptyResult todayStr "yahoo").holdings = [] ∧
      (createEmptyResult todayStr "yahoo").dataQuality = .unavailable) ∧
    ((fetchHoldingsWithProviders bFirstSuccess todayStr iwrdFund).result.holdings = [] ↔
      (fetchHoldingsWithProviders bFirstSuccess todayStr iwrdFund).result.dataQuality =
        .unavailable) := by
  have h := holdingsResult_empty_iff_unavailable
  refine ⟨h.1 0 (some 5), h.1 42 none, h.2.1 todayStr "yahoo", h.2.2 bFirstSuccess iwrdFund todayStr ?_⟩
  intro name r hr
  unfold bFirstSuccess at hr
  by_cases hn : (name == "ishares") = true
  · rw [if_pos hn] at hr
    exact FetchOutcome.noConfusion hr
  · rw [if_neg hn] at hr
    injection hr with hr'
    rw [← hr']
    simp [okFull, threeHoldings, mkHolding]

/-! ## Claim C9 — unregistered candidates are skipped silently -/

/-- C9: the "fidelity" name the detector can emit resolves to no registered
fetcher; a candidate whose name is unregistered leaves the waterfall state
exactly as if it were absent (same trace — no progress event, no attempt, no
fetch); and every emitted event, attempted name and invoked name of any
waterfall run belongs to a registered provider. -/
theorem unregistered_provider_skipped :
    isRegistered "fidelity" = false ∧
    (∀ (b : FetchBehavior) (fund : FundMetadata) (today : String)
       (p : ProviderInfo) (rest : List ProviderInfo),
       isRegistered p.provider = false →
       runWaterfall b fund today (p :: rest) = runWaterfall b fund today rest) ∧
    (∀ (b : FetchBehavior) (fund : FundMetadata) (today : String),
       (∀ e ∈ (fetchHoldingsWithProviders b today fund).events,
         isRegistered e.provider = true) ∧
       (∀ n ∈ (fetchHoldingsWithProviders b today fund).attempted,
         isRegistered n = true) ∧
       (∀ n ∈ (fetchHoldingsWithProviders b today fund).invoked,
         isRegistered n = true)) :=
  ⟨by decide,
   fun b fund today p rest h => runWaterfall_skip b fund today p rest h,
   fun b fund today => runWaterfall_all_registered b fund today _⟩

/-- C9 witness: the fidelity candidate is unregistered and skipping it leaves
the trace unchanged; the first progress event the fidelity-named fund's run
emits belongs to a registered provider (ft-scraper, not fidelity). -/
theorem unregistered_provider_skipped_witness :
    isRegistered "fidelity" = false ∧
    runWaterfall bAllErr fidelityFund todayStr (fidelityEntry :: [ftEntry]) =
      runWaterfall bAllErr fidelityFund todayStr [ftEntry] ∧
    isRegistered (tryingUpdate "ft-scraper" "FID").provider = true := by
  have h := unregistered_provider_skipped
  exact ⟨h.1,
    h.2.1 bAllErr fidelityFund todayStr fidelityEntry [ftEntry] (by decide),
    (h.2.2 bAllErr fidelityFund todayStr).1 (tryingUpdate "ft-scraper" "FID")
      (by decide)⟩

/-! ## Claim C10 — internal consistency of every FundFetchResult -/

/-- C10: for every batch result, under the (fetcher-contract) hypothesis that
a provider result carries its own provider's name: `status = success` iff the
holdings count is positive; `status = failed` iff the winning provider is
"none"; `status = failed` iff the error field holds the fixed message
"No data available from any provider"; and on success the error field is
undefined. -/
theorem fundFetchResult_consistent (b : FetchBehavior) (today : String)
    (funds : List FundMetadata)
    (hb : ∀ (fund : FundMetadata) (name : String) (r : HoldingsResult),
      b name fund = .ok r → r.provider = name)
    (res : FundFetchResult)
    (hres : res ∈ fetchAllHoldingsWithProgress b today funds) :
    (res.status = .success ↔ 0 < res.holdingsCount) ∧
    (res.status = .failed ↔ res.provider = "none") ∧
    (res.status = .failed ↔
      res.error = some "No data available from any provider") ∧
    (res.status = .success → res.error = none) := by
  rcases List.mem_map.mp hres with ⟨fund, _, rfl⟩
  have hiff : ((fetchHoldingsWithProviders b today fund).result.holdings = [] ↔
      (fetchHoldingsWithProviders b today fund).result.provider = "none") := by
    unfold fetchHoldingsWithProviders
    exact runWaterfall_empty_iff_none b fund today
      (detectProviders fund).providers (hb fund)
  unfold fundFetchResultFor
  by_cases hlen : (fetchHoldingsWithProviders b today fund).result.holdings.length > 0
  · have hne : (fetchHoldingsWithProviders b today fund).result.holdings ≠ [] :=
      List.length_pos.mp hlen
    have hnone : (fetchHoldingsWithProviders b today fund).result.provider ≠ "none" :=
      fun hc => hne (hiff.mpr hc)
    simp only [if_pos hlen, if_neg (Nat.pos_iff_ne_zero.mp hlen)]
    simp [hlen, hnone]
  · have hempty : (fetchHoldingsWithProviders b today fund).result.holdings = [] := by
      rcases List.eq_nil_or_concat (fetchHoldingsWithProviders b today fund).result.holdings
        with h | ⟨l, a, h⟩
      · exact h
      · exfalso
        apply hlen
        rw [h]
        simp
    have hzero : (fetchHoldingsWithProviders b today fund).result.holdings.length = 0 := by
      rw [hempty]
      rfl
    simp only [if_neg hlen, if_pos hzero]
    simp [hzero, hiff.mp hempty]

/-- C10 witness: the theorem applied to the three-fund batch under `bBatch`,
at the failing BlackRock fund's result. -/
theorem fundFetchResult_consistent_witness :
    ((fundFetchResultFor bBatch todayStr blackrockFund).status = .success ↔
      0 < (fundFetchResultFor bBatch todayStr blackrockFund).holdingsCount) ∧
    ((fundFetchResultFor bBatch todayStr blackrockFund).status = .failed ↔
      (fundFetchResultFor bBatch todayStr blackrockFund).provider = "none") ∧
    ((fundFetchResultFor bBatch todayStr blackrockFund).status = .failed ↔
      (fundFetchResultFor bBatch todayStr blackrockFund).error =
        some "No data available from any provider") ∧
    ((fundFetchResultFor bBatch todayStr blackrockFund).status = .success →
      (fundFetchResultFor bBatch todayStr blackrockFund).error = none) := by
  refine fundFetchResult_consistent bBatch todayStr
    [iwrdFund, blackrockFund, fidelityFund] ?_
    (fundFetchResultFor bBatch todayStr blackrockFund) (by decide)
  intro fund name r h
  unfold bBatch at h
  by_cases h1 : (fund.symbol == "B4VY989") = true
  · rw [if_pos h1] at h
    exact FetchOutcome.noConfusion h
  · rw [if_neg h1] at h
    by_cases h2 : (name == "ishares") = true
    · rw [if_pos h2] at h
      injection h with h'
      rw [← h']
      rfl
    · rw [if_neg h2] at h
      injection h with h'
      rw [← h']
      rfl

/-! ## Claim C7 — batch order and attempted providers -/

/-- C7: the batch returns exactly one `FundFetchResult` per input fund, at
the same position as that fund in the input list (so input order is
preserved regardless of per-fund outcomes), and each result's
`attemptedProviders` — collected by the batch's tracking callback from the
`trying` events — equals the list of provider names the waterfall pushed to
its attempt list, in attempt order. -/
theorem fetchAllHoldingsWithProgress_order_attempted (b : FetchBehavior)
    (today : String) (funds : List FundMetadata) :
    (fetchAllHoldingsWithProgress b today funds).length = funds.length ∧
    ∀ i (hi : i < funds.length),
      ∃ r, (fetchAllHoldingsWithProgress b today funds).get? i = some r ∧
        r.symbol = (funds.get ⟨i, hi⟩).symbol ∧
        r.name = (funds.get ⟨i, hi⟩).name ∧
        r.attemptedProviders =
          (fetchHoldingsWithProviders b today (funds.get ⟨i, hi⟩)).attempted := by
  refine ⟨by simp [fetchAllHoldingsWithProgress], ?_⟩
  intro i hi
  refine ⟨fundFetchResultFor b today (funds.get ⟨i, hi⟩), ?_, rfl, rfl, ?_⟩
  · unfold fetchAllHoldingsWithProgress
    rw [List.get?_eq_getElem?, List.getElem?_map, List.getElem?_eq_getElem hi]
    rfl
  · unfold fundFetchResultFor fetchHoldingsWithProviders
    simp only []
    exact (runWaterfall_attempted_eq_tryingNames b (funds.get ⟨i, hi⟩) today
      (detectProviders (funds.get ⟨i, hi⟩)).providers).symm

/-- C7 witness: the three-fund batch under `bBatch` has three results; the
second one belongs to the BlackRock fund (which fails every provider) and its
`attemptedProviders` records exactly the providers that reached `trying`:
ft-scraper, yahoo, morningstar. -/
theorem fetchAllHoldingsWithProgress_order_attempted_witness :
    (fetchAllHoldingsWithProgress bBatch todayStr
      [iwrdFund, blackrockFund, fidelityFund]).length = 3 ∧
    ∃ r, (fetchAllHoldingsWithProgress bBatch todayStr
        [iwrdFund, blackrockFund, fidelityFund]).get? 1 = some r ∧
      r.symbol = "B4VY989" ∧
      r.name = "BlackRock Continental European Income Fund" ∧
      r.attemptedProviders = ["ft-scraper", "yahoo", "morningstar"] := by
  have h := fetchAllHoldingsWithProgress_order_attempted bBatch todayStr
    [iwrdFund, blackrockFund, fidelityFund]
  rcases h.2 1 (by decide) with ⟨r, hr1, hr2, hr3, hr4⟩
  exact ⟨by simpa using h.1, r, hr1, hr2.trans (by decide),
    hr3.trans (by decide), hr4.trans (by decide)⟩

/-- C5 witness: the theorem applied to the iShares scenario fund. -/
theorem detectProviders_universal_fallbacks_witness :
    (detectProviders iwrdFund).providers ≠ [] ∧
    (∃ q ∈ (detectProviders iwrdFund).providers, q.provider = "yahoo") ∧
    (∃ q ∈ (detectProviders iwrdFund).providers, q.provider = "morningstar") :=
  detectProviders_universal_fallbacks iwrdFund
